import Mathlib

/-!
Verification of the client-side catalog engine embedded in
`generate_index.py` (the JavaScript inside the generated HTML page).
Numbers are modelled as exact rationals (`ℚ`); the script only ever
produces finite values on the inputs the claims quantify over, and the
non-finite cases of the render pipeline are modelled separately by
`JSNum`.  Mappings/objects are modelled as association lists, JavaScript
`null`/`undefined` as `Option`, and `Infinity` bucket bounds as `none`.
-/

namespace AllensList

/-! ## Price rounding (source: `roundPrice`, script lines 638-650) -/

/-- Embedding of JavaScript `Math.round`: rounds to the nearest integer,
with halves rounded toward positive infinity. -/
def jsRound (x : ℚ) : ℤ := ⌊x + 1/2⌋

/-- First step of `roundPrice`: `let p = Math.round(x/10)*10`. -/
def preRound (x : ℚ) : ℤ := jsRound (x / 10) * 10

/-- Adjustment step of `roundPrice`: if `p > 340`, a `10` ending is
rounded down and a `90` ending rounded up.  The source computes
`last = ((p % 100) + 100) % 100` (positive modulo) and branches on it;
the `let` is inlined here. -/
def roundAdjust (p : ℤ) : ℤ :=
  if 340 < p then
    if ((p % 100) + 100) % 100 = 10 then p - 10
    else if ((p % 100) + 100) % 100 = 90 then p + 10
    else p
  else p

/-- Function `roundPrice(n)`: round to the nearest multiple of 10, then adjust
`10`/`90` endings above 340.  (The source returns `''` for non-finite
input; `ℚ` inputs are always finite.) -/
def roundPrice (n : ℚ) : ℚ := ((roundAdjust (preRound n) : ℤ) : ℚ)

/-! ## Discount rules (source: `asRuleObj`, `resolveRule`, lines 593-602 and 659-676) -/

/-- Raw rule value as stored in the configuration: either a bare number
(legacy shorthand) or an object with possibly-null `pct`/`flat` fields.
The source's coercion of `''` and non-numeric text to `null` happens at
the configuration boundary and is reflected by the `Option` fields. -/
inductive RuleVal
  | num (v : ℚ)
  | obj ( pct : Option ℚ) (flat : Option ℚ)
deriving DecidableEq

/-- Resolved rule shape `{pct, flat}` where `none` is JavaScript `null`. -/
structure Rule where
  pct : Option ℚ
  flat : Option ℚ
deriving DecidableEq

/-- Function `asRuleObj(v)`: `null → {pct:null,flat:null}`, number `v → {pct:v,flat:null}`,
object `→ {pct,flat}`. -/
def asRuleObj : Option RuleVal → Rule
  | none => ⟨none, none⟩
  | some (.num v) => ⟨some v, none⟩
  | some (.obj p f) => ⟨p, f⟩

/-- Price bucket `{label, lo, hi}` where `hi = none` encodes `Infinity`
(the source maps a missing/`"Infinity"` third entry to `Infinity`). -/
structure Bucket where
  label : String
  lo : ℚ
  hi : Option ℚ
deriving DecidableEq

/-- Engine configuration `{defaults, perSheet, buckets}`, passed
explicitly (the source reads it from `getEngineConfig()`). -/
structure Config where
  defaults : List (String × RuleVal)
  perSheet : List (String × List (String × RuleVal))
  buckets : List Bucket

/-- Back-compat percent-only table `DEFAULT_RULES` from the generator. -/
def DEFAULT_RULES : List (String × ℚ) :=
  [("1-100", 30), ("101-220", 20), ("221-300", 15), ("301-469", 13), ("470+", 10)]

/-- Default buckets `PRICE_BUCKETS` from the generator
(`470+` is unbounded above). -/
def PRICE_BUCKETS : List Bucket :=
  [⟨"1-100", 1, some 100⟩, ⟨"101-220", 101, some 220⟩, ⟨"221-300", 221, some 300⟩,
   ⟨"301-469", 301, some 469⟩, ⟨"470+", 470, none⟩]

/-- The per-sheet rule for a label: `asRuleObj(page[label])` where
`page = cfg.perSheet[sheetName] or {}`. -/
def pageRule (label sheetName : String) (cfg : Config) : Rule :=
  asRuleObj (((cfg.perSheet.lookup sheetName).getD []).lookup label)

/-- The defaults rule for a label: `asRuleObj(cfg.defaults[label])`. -/
def defRule (label : String) (cfg : Config) : Rule :=
  asRuleObj (cfg.defaults.lookup label)

/-- Function `resolveRule(label, sheetName)`: fall back to the legacy numeric
table when both the per-sheet and the defaults rule are entirely unset,
otherwise resolve `pct` and `flat` independently, preferring the
per-sheet value when it is non-null. -/
def resolveRule (label sheetName : String) (cfg : Config) (legacy : List (String × ℚ)) : Rule :=
  if (pageRule label sheetName cfg).pct = none ∧ (pageRule label sheetName cfg).flat = none ∧
     (defRule label cfg).pct = none ∧ (defRule label cfg).flat = none then
    ⟨some ((legacy.lookup label).getD 0), none⟩
  else
    ⟨match (pageRule label sheetName cfg).pct with
      | some v => some v
      | none => (defRule label cfg).pct,
     match (pageRule label sheetName cfg).flat with
      | some v => some v
      | none => (defRule label cfg).flat⟩

/-! ## Buckets and final price (source: `activeBuckets`, `finalPriceFor`, lines 653-692) -/

/-- Inclusive range test `base >= b.lo && base <= b.hi` from the bucket
loop of `finalPriceFor`; an `Infinity` upper bound accepts everything. -/
def bucketContains (b : Bucket) (x : ℚ) : Bool :=
  decide (b.lo ≤ x) &&
    (match b.hi with
      | none => true
      | some h => decide (x ≤ h))

/-- First bucket in listed order whose range contains the price
(the linear scan of `finalPriceFor`, also §4.4's `resolveBucket`). -/
def resolveBucket (x : ℚ) : List Bucket → Option Bucket
  | [] => none
  | b :: bs => if bucketContains b x then some b else resolveBucket x bs

/-- Function `activeBuckets()`: the configured bucket list.  The source's
`Number` coercion of the raw `[label, lo, hi]` arrays is handled at the
configuration boundary (`Config.buckets` is already parsed). -/
def activeBuckets (cfg : Config) : List Bucket := cfg.buckets

/-- Discount application inside `finalPriceFor`:
`p = base*(1 - pct/100); p = p - flat; if (p < 0) p = 0` with
`pct = Number(rule.pct||0)` and `flat = Number(rule.flat||0)`
(null fields coerce to 0 at this point). -/
def applyDiscount (base : ℚ) (rule : Rule) : ℚ :=
  if base * (1 - rule.pct.getD 0 / 100) - rule.flat.getD 0 < 0 then 0
  else base * (1 - rule.pct.getD 0 / 100) - rule.flat.getD 0

/-- Bucket loop of `finalPriceFor`: the first containing bucket's rule is
applied and the result rounded; if no bucket matches, the base price is
rounded directly. -/
def finalPriceForGo (sheetName : String) (base : ℚ) (cfg : Config)
    (legacy : List (String × ℚ)) : List Bucket → ℚ
  | [] => roundPrice base
  | b :: bs =>
    if bucketContains b base then
      roundPrice (applyDiscount base (resolveRule b.label sheetName cfg legacy))
    else finalPriceForGo sheetName base cfg legacy bs

/-- Function `finalPriceFor(sheetName, base)` over an explicit configuration. -/
def finalPriceFor (sheetName : String) (base : ℚ) (cfg : Config)
    (legacy : List (String × ℚ)) : ℚ :=
  finalPriceForGo sheetName base cfg legacy (activeBuckets cfg)

/-! ## Helper lemmas about rounding -/

lemma dvd_preRound (x : ℚ) : (10 : ℤ) ∣ preRound x := dvd_mul_left 10 _

lemma preRound_lower (x : ℚ) : x - 5 < ((preRound x : ℤ) : ℚ) := by
  have h2 := Int.lt_floor_add_one (x / 10 + 1/2)
  unfold preRound jsRound
  push_cast
  linarith

lemma preRound_upper (x : ℚ) : ((preRound x : ℤ) : ℚ) ≤ x + 5 := by
  have h1 := Int.floor_le (x / 10 + 1/2)
  unfold preRound jsRound
  push_cast
  linarith

lemma preRound_of_dvd (m : ℤ) (h : (10 : ℤ) ∣ m) : preRound (m : ℚ) = m := by
  obtain ⟨k, rfl⟩ := h
  unfold preRound jsRound
  have h1 : ((10 * k : ℤ) : ℚ) / 10 = (k : ℚ) := by
    push_cast
    ring_nf
  rw [h1]
  have h2 : ⌊(k : ℚ) + 1/2⌋ = k := by
    rw [add_comm, Int.floor_add_int]
    norm_num
  rw [h2]
  ring

lemma dvd_roundAdjust (p : ℤ) (h : (10 : ℤ) ∣ p) : (10 : ℤ) ∣ roundAdjust p := by
  unfold roundAdjust
  split_ifs <;> omega

lemma roundAdjust_no_bad_ending (p : ℤ) (h : (10 : ℤ) ∣ p) :
    340 < roundAdjust p → roundAdjust p % 100 ≠ 10 ∧ roundAdjust p % 100 ≠ 90 := by
  unfold roundAdjust
  split_ifs <;> omega

lemma roundAdjust_eq_self (q : ℤ)
    (h : 340 < q → q % 100 ≠ 10 ∧ q % 100 ≠ 90) : roundAdjust q = q := by
  unfold roundAdjust
  split_ifs <;> omega

lemma preRound_409 : preRound 409 = 410 := by
  unfold preRound jsRound
  norm_num

lemma preRound_486 : preRound 486 = 490 := by
  unfold preRound jsRound
  norm_num

lemma preRound_344 : preRound 344 = 340 := by
  unfold preRound jsRound
  norm_num

lemma preRound_346 : preRound 346 = 350 := by
  unfold preRound jsRound
  norm_num

lemma roundPrice_409 : roundPrice 409 = 400 := by
  rw [roundPrice, preRound_409]
  norm_num [roundAdjust]

lemma roundPrice_486 : roundPrice 486 = 500 := by
  rw [roundPrice, preRound_486]
  norm_num [roundAdjust]

lemma roundPrice_344 : roundPrice 344 = 340 := by
  rw [roundPrice, preRound_344]
  norm_num [roundAdjust]

lemma roundPrice_346 : roundPrice 346 = 350 := by
  rw [roundPrice, preRound_346]
  norm_num [roundAdjust]

/-- C1: `roundPrice` first rounds to the nearest multiple of 10 with
halves rounded up (the result is the multiple of 10 in `(x-5, x+5]`);
above 340 a `10` ending is lowered by 10 and a `90` ending raised by 10,
any other ending is kept; at or below 340 no adjustment happens; and the
four concrete examples hold. -/
theorem c1_roundPrice_spec (x : ℚ) (hx : 0 ≤ x) :
    ((x - 5 < ((preRound x : ℤ) : ℚ) ∧ ((preRound x : ℤ) : ℚ) ≤ x + 5 ∧
        (10 : ℤ) ∣ preRound x) ∧
      (340 < preRound x ∧ preRound x % 100 = 10 →
        roundPrice x = ((preRound x - 10 : ℤ) : ℚ)) ∧
      (340 < preRound x ∧ preRound x % 100 = 90 →
        roundPrice x = ((preRound x + 10 : ℤ) : ℚ)) ∧
      (340 < preRound x ∧ preRound x % 100 ≠ 10 ∧ preRound x % 100 ≠ 90 →
        roundPrice x = ((preRound x : ℤ) : ℚ)) ∧
      (preRound x ≤ 340 → roundPrice x = ((preRound x : ℤ) : ℚ))) ∧
    (roundPrice 409 = 400 ∧ roundPrice 486 = 500 ∧
      roundPrice 344 = 340 ∧ roundPrice 346 = 350) := by
  refine ⟨⟨⟨preRound_lower x, preRound_upper x, dvd_preRound x⟩, ?_, ?_, ?_, ?_⟩,
    roundPrice_409, roundPrice_486, roundPrice_344, roundPrice_346⟩ <;>
    intro h <;> unfold roundPrice <;> congr 1 <;> unfold roundAdjust <;>
    split_ifs <;> omega

/-- Witness for C1 at `x = 409`. -/
theorem c1_witness : roundPrice 409 = 400 :=
  (c1_roundPrice_spec 409 (by norm_num)).2.1

/-- C8: `roundPrice` is idempotent on finite non-negative inputs. -/
theorem c8_roundPrice_idempotent (x : ℚ) (hx : 0 ≤ x) :
    roundPrice (roundPrice x) = roundPrice x := by
  unfold roundPrice
  rw [preRound_of_dvd _ (dvd_roundAdjust _ (dvd_preRound x)),
    roundAdjust_eq_self _ (roundAdjust_no_bad_ending _ (dvd_preRound x))]

/-- Witness for C8 at `x = 409`. -/
theorem c8_witness : roundPrice (roundPrice 409) = roundPrice 409 :=
  c8_roundPrice_idempotent 409 (by norm_num)

/-! ## C4: the final price is never negative -/

lemma preRound_nonneg (x : ℚ) (h : 0 ≤ x) : 0 ≤ preRound x := by
  unfold preRound jsRound
  have h1 : (0 : ℤ) ≤ ⌊x / 10 + 1/2⌋ := by
    apply Int.le_floor.mpr
    have h2 : (0 : ℚ) ≤ x / 10 := by positivity
    push_cast
    linarith
  omega

lemma roundAdjust_nonneg (p : ℤ) (h : 0 ≤ p) : 0 ≤ roundAdjust p := by
  unfold roundAdjust
  split_ifs <;> omega

lemma roundPrice_nonneg (q : ℚ) (h : 0 ≤ q) : 0 ≤ roundPrice q := by
  unfold roundPrice
  exact_mod_cast roundAdjust_nonneg _ (preRound_nonneg _ h)

lemma applyDiscount_nonneg (base : ℚ) (rule : Rule) : 0 ≤ applyDiscount base rule := by
  unfold applyDiscount
  split_ifs with h
  · exact le_refl 0
  · linarith [not_lt.mp h]

lemma finalPriceForGo_nonneg (sheetName : String) (base : ℚ) (cfg : Config)
    (legacy : List (String × ℚ)) (hb : 0 ≤ base) :
    ∀ bs : List Bucket, 0 ≤ finalPriceForGo sheetName base cfg legacy bs
  | [] => roundPrice_nonneg _ hb
  | b :: bs => by
    unfold finalPriceForGo
    split_ifs
    · exact roundPrice_nonneg _ (applyDiscount_nonneg _ _)
    · exact finalPriceForGo_nonneg sheetName base cfg legacy hb bs

/-- C4: for every positive base price and every configuration (any
buckets, any rules), the displayed price `finalPriceFor` is non-negative:
the discounted value is clamped at 0 and rounding preserves the sign. -/
theorem c4_finalPrice_nonneg (sheetName : String) (base : ℚ) (cfg : Config)
    (legacy : List (String × ℚ)) (hb : 0 < base) :
    0 ≤ finalPriceFor sheetName base cfg legacy :=
  finalPriceForGo_nonneg sheetName base cfg legacy (le_of_lt hb) (activeBuckets cfg)

/-- Witness for C4 with the generator's default buckets and rules. -/
theorem c4_witness :
    0 ≤ finalPriceFor "Phones" 100 ⟨[], [], PRICE_BUCKETS⟩ DEFAULT_RULES :=
  c4_finalPrice_nonneg "Phones" 100 ⟨[], [], PRICE_BUCKETS⟩ DEFAULT_RULES (by norm_num)

/-! ## C2: first-match bucket resolution -/

/-- Example buckets from the spec's bucket-resolution test. -/
def exBucketsC2 : List Bucket := [⟨"A", 1, some 100⟩, ⟨"B", 101, some 220⟩]

lemma resolveBucket_eq_find (x : ℚ) (bs : List Bucket) :
    resolveBucket x bs = bs.find? (fun b => bucketContains b x) := by
  induction bs with
  | nil => rfl
  | cons b bs ih =>
    unfold resolveBucket
    cases hc : bucketContains b x <;>
      simp [hc, ih, List.find?_cons_of_pos, List.find?_cons_of_neg]

lemma finalPriceForGo_of_none (sheetName : String) (base : ℚ) (cfg : Config)
    (legacy : List (String × ℚ)) :
    ∀ bs : List Bucket, resolveBucket base bs = none →
      finalPriceForGo sheetName base cfg legacy bs = roundPrice base
  | [], _ => rfl
  | b :: bs, h => by
    unfold resolveBucket at h
    unfold finalPriceForGo
    cases hc : bucketContains b base with
    | true => rw [hc] at h; simp at h
    | false =>
      rw [hc] at h
      simp only [Bool.false_eq_true, if_false] at h ⊢
      exact finalPriceForGo_of_none sheetName base cfg legacy bs h

lemma finalPriceForGo_of_some (sheetName : String) (base : ℚ) (cfg : Config)
    (legacy : List (String × ℚ)) :
    ∀ bs : List Bucket, ∀ b : Bucket, resolveBucket base bs = some b →
      finalPriceForGo sheetName base cfg legacy bs =
        roundPrice (applyDiscount base (resolveRule b.label sheetName cfg legacy))
  | [], b, h => by simp [resolveBucket] at h
  | b0 :: bs, b, h => by
    unfold resolveBucket at h
    unfold finalPriceForGo
    cases hc : bucketContains b0 base with
    | true =>
      rw [hc] at h
      simp only [if_true] at h
      cases h
      simp only [if_true]
    | false =>
      rw [hc] at h
      simp only [Bool.false_eq_true, if_false] at h ⊢
      exact finalPriceForGo_of_some sheetName base cfg legacy bs b h

/-- C2: the displayed-price pipeline uses the first bucket in listed
order whose inclusive range contains the base price (`List.find?`), even
when buckets overlap; with no containing bucket, the base price goes
straight to `roundPrice`; and the spec's bucket-resolution examples
hold. -/
theorem c2_bucket_resolution (sheetName : String) (base : ℚ) (cfg : Config)
    (legacy : List (String × ℚ)) :
    (resolveBucket base (activeBuckets cfg) =
        (activeBuckets cfg).find? (fun b => bucketContains b base)) ∧
    (resolveBucket base (activeBuckets cfg) = none →
        finalPriceFor sheetName base cfg legacy = roundPrice base) ∧
    (∀ b : Bucket, resolveBucket base (activeBuckets cfg) = some b →
        finalPriceFor sheetName base cfg legacy =
          roundPrice (applyDiscount base (resolveRule b.label sheetName cfg legacy))) ∧
    resolveBucket 50 exBucketsC2 = some ⟨"A", 1, some 100⟩ ∧
    resolveBucket 150 exBucketsC2 = some ⟨"B", 101, some 220⟩ ∧
    resolveBucket 500 exBucketsC2 = none :=
  ⟨resolveBucket_eq_find base (activeBuckets cfg),
   finalPriceForGo_of_none sheetName base cfg legacy (activeBuckets cfg),
   fun b h => finalPriceForGo_of_some sheetName base cfg legacy (activeBuckets cfg) b h,
   by decide, by decide, by decide⟩

/-- Witness for C2: bucket "A" wins for price 50 under the example
buckets, so the pipeline applies "A"'s rule. -/
theorem c2_witness :
    finalPriceFor "Phones" 50 ⟨[], [], exBucketsC2⟩ [] =
      roundPrice (applyDiscount 50 (resolveRule "A" "Phones" ⟨[], [], exBucketsC2⟩ [])) :=
  (c2_bucket_resolution "Phones" 50 ⟨[], [], exBucketsC2⟩ []).2.2.1
    ⟨"A", 1, some 100⟩ (by decide)

/-! ## C3: per-field rule precedence -/

/-- Example configuration from the spec's rule-precedence test. -/
def exCfgC3 : Config :=
  ⟨[("A", .obj (some 30) (some 5))], [("Phones", [("A", .obj (some 10) none)])], []⟩

/-- C3: `resolveRule` resolves `pct` and `flat` independently — each
field takes the per-sheet value when non-null, else the defaults value —
and falls back to the legacy percent table (value or 0, flat null) only
when all four source fields are unset; the spec's example resolves to
`{pct:10, flat:5}`. -/
theorem c3_resolveRule_precedence (label sheetName : String) (cfg : Config)
    (legacy : List (String × ℚ)) :
    (¬((pageRule label sheetName cfg).pct = none ∧ (pageRule label sheetName cfg).flat = none ∧
        (defRule label cfg).pct = none ∧ (defRule label cfg).flat = none) →
      (resolveRule label sheetName cfg legacy).pct =
          (if (pageRule label sheetName cfg).pct.isSome then (pageRule label sheetName cfg).pct
           else (defRule label cfg).pct) ∧
      (resolveRule label sheetName cfg legacy).flat =
          (if (pageRule label sheetName cfg).flat.isSome then (pageRule label sheetName cfg).flat
           else (defRule label cfg).flat)) ∧
    (((pageRule label sheetName cfg).pct = none ∧ (pageRule label sheetName cfg).flat = none ∧
        (defRule label cfg).pct = none ∧ (defRule label cfg).flat = none) →
      resolveRule label sheetName cfg legacy = ⟨some ((legacy.lookup label).getD 0), none⟩) ∧
    resolveRule "A" "Phones" exCfgC3 [] = ⟨some 10, some 5⟩ := by
  refine ⟨?_, ?_, by decide⟩
  · intro hn
    rw [resolveRule, if_neg hn]
    constructor
    · cases hp : (pageRule label sheetName cfg).pct <;> simp [hp]
    · cases hp : (pageRule label sheetName cfg).flat <;> simp [hp]
  · intro hy
    rw [resolveRule, if_pos hy]

/-- Witness for C3 on the example configuration. -/
theorem c3_witness :
    (resolveRule "A" "Phones" exCfgC3 []).pct =
      (if (pageRule "A" "Phones" exCfgC3).pct.isSome then (pageRule "A" "Phones" exCfgC3).pct
       else (defRule "A" exCfgC3).pct) :=
  ((c3_resolveRule_precedence "A" "Phones" exCfgC3 []).1 (by decide)).1

/-! ## C10 (corrected): resolved rules can keep null fields -/

/-- Configuration with no defaults, no per-sheet rules and no buckets. -/
def emptyCfg : Config := ⟨[], [], []⟩

/-- C10 counterexample: with an empty configuration the legacy fallback
of `resolveRule` returns `{pct: 30, flat: null}` for label "1-100" — the
`flat` field of the result is null, not a number. -/
theorem c10_counterexample :
    resolveRule "1-100" "Phones" emptyCfg DEFAULT_RULES = ⟨some 30, none⟩ ∧
      (resolveRule "1-100" "Phones" emptyCfg DEFAULT_RULES).flat = none := by
  constructor <;> decide

/-- C10 (amended): a field of the resolved rule is null only when that
field is unset in both the per-sheet and the defaults rule; in
particular the legacy fallback always returns a null `flat`.  (Null
fields are coerced to 0 at the point of application, in
`applyDiscount`.) -/
theorem c10_null_fields (label sheetName : String) (cfg : Config)
    (legacy : List (String × ℚ)) :
    ((resolveRule label sheetName cfg legacy).pct = none →
      (pageRule label sheetName cfg).pct = none ∧ (defRule label cfg).pct = none) ∧
    ((resolveRule label sheetName cfg legacy).flat = none →
      (pageRule label sheetName cfg).flat = none ∧ (defRule label cfg).flat = none) ∧
    (((pageRule label sheetName cfg).pct = none ∧ (pageRule label sheetName cfg).flat = none ∧
        (defRule label cfg).pct = none ∧ (defRule label cfg).flat = none) →
      (resolveRule label sheetName cfg legacy).flat = none) := by
  by_cases hc : (pageRule label sheetName cfg).pct = none ∧
      (pageRule label sheetName cfg).flat = none ∧
      (defRule label cfg).pct = none ∧ (defRule label cfg).flat = none
  · refine ⟨?_, ?_, ?_⟩
    · intro h
      exact ⟨hc.1, hc.2.2.1⟩
    · intro h
      exact ⟨hc.2.1, hc.2.2.2⟩
    · intro h
      rw [resolveRule, if_pos hc]
  · refine ⟨?_, ?_, fun h => absurd h hc⟩
    · intro h
      rw [resolveRule, if_neg hc] at h
      cases hp : (pageRule label sheetName cfg).pct with
      | some v => rw [hp] at h; simp at h
      | none =>
        rw [hp] at h
        exact ⟨rfl, by simpa using h⟩
    · intro h
      rw [resolveRule, if_neg hc] at h
      cases hp : (pageRule label sheetName cfg).flat with
      | some v => rw [hp] at h; simp at h
      | none =>
        rw [hp] at h
        exact ⟨rfl, by simpa using h⟩

/-- Witness for C10's amended theorem at the counterexample input. -/
theorem c10_witness :
    (pageRule "1-100" "Phones" emptyCfg).flat = none ∧
      (defRule "1-100" emptyCfg).flat = none :=
  (c10_null_fields "1-100" "Phones" emptyCfg DEFAULT_RULES).2.1 (by decide)

/-! ## String primitives for the search engine

The embedded script works on JavaScript strings; here tokens are ASCII
after normalization, so `String`/`List Char` with the counting of
`String.length` agrees with JavaScript `.length` on every string the
engine produces. -/

/-- Word character of the regex class `\w` (`[A-Za-z0-9_]`). -/
def isWordChar (c : Char) : Bool := c.isAlphanum || c == '_'

/-- Test that `t` is a leading segment of `h` (JavaScript `h.startsWith(t)`). -/
def startsWithList : List Char → List Char → Bool
  | [], _ => true
  | _ :: _, [] => false
  | c :: cs, d :: ds => c == d && startsWithList cs ds

/-- Test that `t` occurs inside `h` (JavaScript `h.includes(t)`). -/
def hasSub (h t : List Char) : Bool :=
  match h with
  | [] => startsWithList t []
  | _ :: rest => startsWithList t h || hasSub rest t

/-- JavaScript `h.includes(t)` on strings. -/
def jsIncludes (h t : String) : Bool := hasSub h.toList t.toList

/-- Inner column loop of the `levenshtein` dynamic program: given the
previous row's remaining entries, the diagonal value and the value just
written to the left, produce the rest of the new row
(`dp[j] = min(dp[j]+1, dp[j-1]+1, prev+cost)`). -/
def levGo (c : Char) : List Char → ℤ → List ℤ → ℤ → List ℤ
  | [], _, _, _ => []
  | _ :: _, _, [], _ => []
  | y :: ys, diag, pj :: rest, left =>
    let cost : ℤ := if c == y then 0 else 1
    let v := min (pj + 1) (min (left + 1) (diag + cost))
    v :: levGo c ys pj rest v

/-- One row step of the `levenshtein` dynamic program (`dp[0] = i`, then
the column loop). -/
def levNextRow (c : Char) (bs : List Char) (row : List ℤ) : List ℤ :=
  match row with
  | [] => []
  | p0 :: rest => (p0 + 1) :: levGo c bs p0 rest (p0 + 1)

/-- Function `levenshtein(a, b)` from the script: early exits for equal or empty
strings, then the single-row dynamic program, answer in the last cell. -/
def levenshtein (a b : String) : ℤ :=
  if a == b then 0
  else if a.toList.isEmpty then (b.toList.length : ℤ)
  else if b.toList.isEmpty then (a.toList.length : ℤ)
  else
    ((a.toList.foldl (fun row c => levNextRow c b.toList row)
        ((List.range (b.toList.length + 1)).map (fun j => (j : ℤ)))).getLast?).getD 0

/-- Function `fuzzyTokenMatch(token, hayTokens)`: empty tokens match; otherwise
containment wins; otherwise a bounded-edit-distance scan with threshold
2 for tokens of length at least 6, else 1, skipping haystack tokens
whose length differs by more than 3. -/
def fuzzyTokenMatch (token : String) (hayTokens : List String) : Bool :=
  if token == "" then true
  else if hayTokens.any (fun h => jsIncludes h token) then true
  else
    hayTokens.any (fun h =>
      decide (((h.length : ℤ) - (token.length : ℤ)).natAbs ≤ 3) &&
        decide (levenshtein token h ≤ (if 6 ≤ token.length then 2 else 1)))

/-- C6: for a non-empty query token, `fuzzyTokenMatch` returns true when
some haystack token contains it; otherwise it returns true exactly when
some haystack token within length difference 3 is within edit distance 2
(length ≥ 6) or 1 (length < 6); and "16"/"17" match ["15"] while "20"
does not. -/
theorem c6_fuzzyTokenMatch_spec (t : String) (H : List String) (ht : t ≠ "") :
    ((∃ h ∈ H, jsIncludes h t = true) → fuzzyTokenMatch t H = true) ∧
    ((∀ h ∈ H, jsIncludes h t = false) →
      (fuzzyTokenMatch t H = true ↔
        ∃ h ∈ H, ((h.length : ℤ) - (t.length : ℤ)).natAbs ≤ 3 ∧
          levenshtein t h ≤ (if 6 ≤ t.length then 2 else 1))) ∧
    fuzzyTokenMatch "16" ["15"] = true ∧
    fuzzyTokenMatch "17" ["15"] = true ∧
    fuzzyTokenMatch "20" ["15"] = false := by
  have hbeq : (t == "") = false := by
    simp [beq_eq_false_iff_ne, ht]
  refine ⟨?_, ?_, by decide, by decide, by decide⟩
  · intro hex
    have hany : H.any (fun h => jsIncludes h t) = true := by
      rw [List.any_eq_true]
      obtain ⟨h, hm, hh⟩ := hex
      exact ⟨h, hm, hh⟩
    simp [fuzzyTokenMatch, hbeq, hany]
  · intro hall
    have hany : H.any (fun h => jsIncludes h t) = false := by
      rw [List.any_eq_false]
      intro h hm
      simp [hall h hm]
    simp [fuzzyTokenMatch, hbeq, hany, List.any_eq_true]

/-- Witness for C6: "16" fuzzily matches the haystack ["15"]. -/
theorem c6_witness : fuzzyTokenMatch "16" ["15"] = true :=
  (c6_fuzzyTokenMatch_spec "16" ["15"] (by decide)).2.2.1

/-! ## Text normalizer (source: `normText`, `buildSearchBlob`, lines 605-606)

The regex replacements of `normText` are embedded as left-to-right
scanners.  Scanners whose match can consume several characters carry a
fuel argument bounding the number of scan steps; every step consumes at
least one input character, so fuel `s.length` never runs out.  Word
boundaries (`\b`) before a leading digit are tracked by a
previous-char-is-word-char flag. -/

/-- Step `s.replace(/["”]/g, ' inch ')`. -/
def quoteToInch : List Char → List Char
  | [] => []
  | c :: cs =>
    if c == '"' || c == '”' then " inch ".toList ++ quoteToInch cs
    else c :: quoteToInch cs

/-- Longest run of leading digits and the remainder (regex `\d+`). -/
def takeDigits : List Char → List Char × List Char
  | [] => ([], [])
  | c :: cs =>
    if c.isDigit then
      let p := takeDigits cs
      (c :: p.1, p.2)
    else ([], c :: cs)

/-- Skip leading whitespace (regex `\s*`). -/
def skipSpaces : List Char → List Char
  | [] => []
  | c :: cs => if c.isWhitespace then skipSpaces cs else c :: cs

/-- A word boundary follows: end of string or a non-word character. -/
def noWordAhead : List Char → Bool
  | [] => true
  | c :: _ => !isWordChar c

/-- Match `(\d+)\s*-\s*inch\b` at the start of `s`, returning the digits
and the remainder. -/
def matchDashInch (s : List Char) : Option (List Char × List Char) :=
  let p := takeDigits s
  if p.1.isEmpty then none
  else
    match skipSpaces p.2 with
    | '-' :: r3 =>
      let r4 := skipSpaces r3
      if startsWithList "inch".toList r4 && noWordAhead (r4.drop 4) then
        some (p.1, r4.drop 4)
      else none
    | _ => none

/-- Scanner for `s.replace(/\b(\d+)\s*-\s*inch\b/g, '$1 inch')`. -/
def dashInchGo : ℕ → Bool → List Char → List Char
  | 0, _, s => s
  | _ + 1, _, [] => []
  | fuel + 1, prevWord, c :: cs =>
    if !prevWord && c.isDigit then
      match matchDashInch (c :: cs) with
      | some p => p.1 ++ " inch".toList ++ dashInchGo fuel true p.2
      | none => c :: dashInchGo fuel (isWordChar c) cs
    else c :: dashInchGo fuel (isWordChar c) cs

def dashInchReplace (s : List Char) : List Char := dashInchGo s.length false s

/-- Match `(\d+)\s*inch(es)?\b` at the start of `s` (the optional `es`
is tried greedily, as the regex engine does). -/
def matchPlainInch (s : List Char) : Option (List Char × List Char) :=
  let p := takeDigits s
  if p.1.isEmpty then none
  else
    let r2 := skipSpaces p.2
    if startsWithList "inch".toList r2 then
      let r3 := r2.drop 4
      if startsWithList "es".toList r3 && noWordAhead (r3.drop 2) then some (p.1, r3.drop 2)
      else if noWordAhead r3 then some (p.1, r3)
      else none
    else none

/-- Scanner for `s.replace(/\b(\d+)\s*inch(es)?\b/g, '$1 inch')`. -/
def plainInchGo : ℕ → Bool → List Char → List Char
  | 0, _, s => s
  | _ + 1, _, [] => []
  | fuel + 1, prevWord, c :: cs =>
    if !prevWord && c.isDigit then
      match matchPlainInch (c :: cs) with
      | some p => p.1 ++ " inch".toList ++ plainInchGo fuel true p.2
      | none => c :: plainInchGo fuel (isWordChar c) cs
    else c :: plainInchGo fuel (isWordChar c) cs

def plainInchReplace (s : List Char) : List Char := plainInchGo s.length false s

/-- Match `([2-6])\s*g\b` at the start of `s`. -/
def matchG (s : List Char) : Option (Char × List Char) :=
  match s with
  | [] => none
  | c :: r1 =>
    if decide ('2' ≤ c) && decide (c ≤ '6') then
      match skipSpaces r1 with
      | 'g' :: r3 => if noWordAhead r3 then some (c, r3) else none
      | _ => none
    else none

/-- Scanner for `s.replace(/\b([2-6])\s*g\b/g, '$1g')`. -/
def gGo : ℕ → Bool → List Char → List Char
  | 0, _, s => s
  | _ + 1, _, [] => []
  | fuel + 1, prevWord, c :: cs =>
    if !prevWord && decide ('2' ≤ c) && decide (c ≤ '6') then
      match matchG (c :: cs) with
      | some p => p.1 :: 'g' :: gGo fuel true p.2
      | none => c :: gGo fuel (isWordChar c) cs
    else c :: gGo fuel (isWordChar c) cs

def gReplace (s : List Char) : List Char := gGo s.length false s

/-- Character class `[a-z0-9. ]` kept by `normText`'s final strip. -/
def allowedChar (c : Char) : Bool :=
  (decide ('a' ≤ c) && decide (c ≤ 'z')) || (decide ('0' ≤ c) && decide (c ≤ '9')) ||
    c == '.' || c == ' '

/-- Step `s.replace(/[^a-z0-9\. ]+/g, ' ')`, done per character: the
following whitespace collapse turns the space run produced by a run of
stripped characters into one space, exactly as the `+` form does. -/
def stripDisallowed : List Char → List Char
  | [] => []
  | c :: cs => (if allowedChar c then c else ' ') :: stripDisallowed cs

/-- Step `s.replace(/\s+/g, ' ')`: collapse whitespace runs. -/
def squeezeAux (prevSpace : Bool) : List Char → List Char
  | [] => []
  | c :: cs =>
    if c.isWhitespace then
      if prevSpace then squeezeAux true cs else ' ' :: squeezeAux true cs
    else c :: squeezeAux false cs

/-- JavaScript `.trim()`. -/
def trimChars (s : List Char) : List Char :=
  ((s.dropWhile Char.isWhitespace).reverse.dropWhile Char.isWhitespace).reverse

/-- Function `normText(s)`: lower-case, quote marks to " inch ", `N-inch` and
`N inch(es)` to `N inch`, hyphens to spaces, `[2-6] g` to `[2-6]g`,
strip to `[a-z0-9. ]`, collapse whitespace, trim. -/
def normText (s : String) : String :=
  if s == "" then ""
  else
    let l1 := s.toList.map Char.toLower
    let l2 := quoteToInch l1
    let l3 := dashInchReplace l2
    let l4 := plainInchReplace l3
    let l5 := l4.map (fun c => if c == '-' then ' ' else c)
    let l6 := gReplace l5
    let l7 := stripDisallowed l6
    String.mk (trimChars (squeezeAux false l7))

/-- Brand words removed for the stripped surface of the blob, in the
source's alternation order `ipad|iphone|apple|samsung`. -/
def BRANDS : List (List Char) :=
  ["ipad".toList, "iphone".toList, "apple".toList, "samsung".toList]

def matchBrandGo : List (List Char) → List Char → Option (List Char)
  | [], _ => none
  | w :: ws, s =>
    if startsWithList w s && noWordAhead (s.drop w.length) then some (s.drop w.length)
    else matchBrandGo ws s

/-- Match one of the brand words with a word boundary after it. -/
def matchBrand (s : List Char) : Option (List Char) := matchBrandGo BRANDS s

/-- Scanner for `base.replace(/\b(ipad|iphone|apple|samsung)\b/g, '')`. -/
def brandGo : ℕ → Bool → List Char → List Char
  | 0, _, s => s
  | _ + 1, _, [] => []
  | fuel + 1, prevWord, c :: cs =>
    if !prevWord then
      match matchBrand (c :: cs) with
      | some rest => brandGo fuel true rest
      | none => c :: brandGo fuel (isWordChar c) cs
    else c :: brandGo fuel (isWordChar c) cs

/-- Function `buildSearchBlob(name, sheetName)`: normalized name, brand-stripped
variant, and normalized sheet label, space-joined and trimmed. -/
def buildSearchBlob (name sheetName : String) : String :=
  let base := normText name
  let stripped := String.mk (trimChars (squeezeAux false (brandGo base.toList.length false base.toList)))
  let sheetPart := if sheetName == "" then "" else " " ++ normText sheetName
  String.mk (trimChars ((base ++ " " ++ stripped ++ sheetPart).toList))

/-- JavaScript `s.split(' ')` (split on each single space). -/
def splitSpaceGo (cur : List Char) : List Char → List (List Char)
  | [] => [cur.reverse]
  | c :: cs =>
    if c == ' ' then cur.reverse :: splitSpaceGo [] cs
    else splitSpaceGo (c :: cur) cs

/-- JavaScript `s.split(' ').filter(Boolean)`. -/
def splitTokens (s : String) : List String :=
  ((splitSpaceGo [] s.toList).map String.mk).filter (fun t => !(t == ""))

/-- Function `matchesQuery(row, q)`: empty queries match everything; otherwise
every token of the normalized query must fuzzily match some token of the
row's search blob. -/
def matchesQuery (search q : String) : Bool :=
  if q == "" then true
  else
    let tokens := splitTokens (normText q)
    if tokens.isEmpty then true
    else
      let hayTokens := splitTokens search
      tokens.all (fun tok => fuzzyTokenMatch tok hayTokens)

example : normText "iPad Wi-Fi" = "ipad wi fi" := by decide
example : buildSearchBlob "iPad Wi-Fi" "Tablets" = "ipad wi fi wi fi tablets" := by decide
example : normText "iPhone 15 Pro 256GB" = "iphone 15 pro 256gb" := by decide
example : buildSearchBlob "iPhone 15 Pro 256GB" "Phones" =
    "iphone 15 pro 256gb 15 pro 256gb phones" := by decide
example : normText "15-inch  MacBook 5 g" = "15 inch macbook 5g" := by decide
example : normText "Galaxy 7\" tab" = "galaxy 7 inch tab" := by decide
example : matchesQuery "ipad wi fi wi fi tablets" "wifi" = false := by decide

/-! ## Query variant expansion (source: `expandQueryVariants`, lines 905-940)

This function lives in the page's second script block; the spec's §4.1
describes its variants as part of query matching.  The `Set` of variants
is modelled as an insertion-ordered duplicate-free list. -/

/-- Add to the variant set (JavaScript `Set.prototype.add`). -/
def setAdd (l : List String) (s : String) : List String :=
  if l.contains s then l else l ++ [s]

/-- Replace every non-overlapping occurrence of `pat` (non-empty) by
`rep`, scanning left to right; fuel as in the `normText` scanners. -/
def replaceSubGo : ℕ → List Char → List Char → List Char → List Char
  | 0, _, _, s => s
  | _ + 1, _, _, [] => []
  | fuel + 1, pat, rep, c :: cs =>
    if startsWithList pat (c :: cs) then
      rep ++ replaceSubGo fuel pat rep ((c :: cs).drop pat.length)
    else c :: replaceSubGo fuel pat rep cs

/-- JavaScript `s.replace(/pat/g, rep)` for a literal pattern. -/
def replaceSub (s pat rep : String) : String :=
  String.mk (replaceSubGo s.toList.length pat.toList rep.toList s.toList)

/-- Characters of the regex class `HYPHENS`
(`[‐‑‒–—−-]`). -/
def HYPHEN_CHARS : List Char := ['‐', '‑', '‒', '–', '—', '−', '-']

/-- Characters of the regex class `QUOTES` (`["“”″]`). -/
def QUOTE_CHARS : List Char := ['"', '“', '”', '″']

/-- Replace each character of a class by a replacement string. -/
def replaceCharsWith (cls : List Char) (rep : List Char) : List Char → List Char
  | [] => []
  | c :: cs => (if cls.contains c then rep else [c]) ++ replaceCharsWith cls rep cs

/-- Step `q.replace(/[^\w\s]/g, ' ')`. -/
def replaceNonWordSpace : List Char → List Char
  | [] => []
  | c :: cs => (if isWordChar c || c.isWhitespace then c else ' ') :: replaceNonWordSpace cs

/-- Match `wi\s*fi\b` at the start of `s` (the leading `\b` is checked
by the caller's scan). -/
def matchWiSpFi (s : List Char) : Bool :=
  startsWithList "wi".toList s &&
    (startsWithList "fi".toList (skipSpaces (s.drop 2)) &&
      noWordAhead ((skipSpaces (s.drop 2)).drop 2))

/-- Test `/\bwi\s*fi\b/.test(q)`. -/
def hasWiSpFiGo (prevWord : Bool) : List Char → Bool
  | [] => false
  | c :: cs => (!prevWord && matchWiSpFi (c :: cs)) || hasWiSpFiGo (isWordChar c) cs

/-- Match `wi-?fi\b` at the start of `s`. -/
def matchWiDashFi (s : List Char) : Bool :=
  startsWithList "wi".toList s &&
    (match s.drop 2 with
      | '-' :: r => startsWithList "fi".toList r && noWordAhead (r.drop 2)
      | r => startsWithList "fi".toList r && noWordAhead (r.drop 2))

/-- Test `/\bwi-?fi\b/.test(q)`. -/
def hasWiDashFiGo (prevWord : Bool) : List Char → Bool
  | [] => false
  | c :: cs => (!prevWord && matchWiDashFi (c :: cs)) || hasWiDashFiGo (isWordChar c) cs

/-- Match the exact word `w` (word characters only) at the start of `s`
with a boundary after it. -/
def matchWordHere (w : List Char) (s : List Char) : Bool :=
  startsWithList w s && noWordAhead (s.drop w.length)

/-- Test `/\bw\b/.test(q)` for a word `w` made of word characters. -/
def hasWordGo (w : List Char) (prevWord : Bool) : List Char → Bool
  | [] => false
  | c :: cs => (!prevWord && matchWordHere w (c :: cs)) || hasWordGo w (isWordChar c) cs

/-- Alternates added when the query mentions wifi (the source's literal
list; `‑` is U+2011). -/
def WIFI_ALTS : List String :=
  ["wifi", "wi-fi", "wi fi", "wi-fi/vzw", "wi-fi / vzw", "wi-fi vzw", "wi-fi/vzw",
   "wi‑fi", "wi‑fi/vzw", "wi‑fi vzw"]

/-- Carrier alternation groups from the source. -/
def COMMON_GROUPS : List (List String) :=
  [["att", "at&t", "atnt"], ["tmobile", "t-mobile", "t mobile"], ["verizon", "vz", "vzw"]]

/-- Function `expandQueryVariants(q)`: the lower-cased trimmed query plus inch/
quote rewrites, hyphen normalizations, wifi and carrier alternates, a
punctuation-stripped form, and whitespace-collapsed copies of
everything. -/
def expandQueryVariants (q0 : String) : List String :=
  let q := String.mk (trimChars (q0.toList.map Char.toLower))
  let v1 : List String := [q]
  let v2 :=
    if jsIncludes q "inch" then
      setAdd (setAdd (setAdd v1 (replaceSub q "inch" "\"")) (replaceSub q "inch" "″"))
        (replaceSub q "inch" "in")
    else v1
  let v3 :=
    if q.toList.any (fun c => QUOTE_CHARS.contains c) then
      setAdd (setAdd v2 (String.mk (replaceCharsWith QUOTE_CHARS "inch".toList q.toList)))
        (String.mk (replaceCharsWith QUOTE_CHARS "in".toList q.toList))
    else v2
  let hyphenNormalized := String.mk (replaceCharsWith HYPHEN_CHARS ['-'] q.toList)
  let v4 := if hyphenNormalized ≠ q then setAdd v3 hyphenNormalized else v3
  let v5 := setAdd v4 (String.mk (hyphenNormalized.toList.map (fun c => if c == '-' then ' ' else c)))
  let v6 :=
    if hasWiSpFiGo false q.toList || hasWordGo "wifi".toList false q.toList ||
        hasWiDashFiGo false q.toList then
      WIFI_ALTS.foldl setAdd v5
    else v5
  let v7 :=
    COMMON_GROUPS.foldl
      (fun acc group =>
        if group.any (fun g => jsIncludes q g) then group.foldl setAdd acc else acc) v6
  let v8 := setAdd v7 (String.mk (replaceNonWordSpace q.toList))
  v8.foldl (fun acc v => setAdd acc (String.mk (trimChars (squeezeAux false v.toList)))) v8

/-- All tokens of one normalized query variant fuzzily match the blob's
tokens (the claim's per-variant acceptance). -/
def variantAccepts (search v : String) : Bool :=
  (splitTokens (normText v)).all (fun tok => fuzzyTokenMatch tok (splitTokens search))

/-- Acceptance as C7 claims it: some expanded variant has all its tokens
matching. -/
def claimAccepts (search q : String) : Bool :=
  (expandQueryVariants q).any (fun v => variantAccepts search v)

example : (expandQueryVariants "wifi").contains "wi fi" = true := by decide

/-- C7 counterexample: for the item "iPad Wi-Fi" on sheet "Tablets" and
the query "wifi", the claim's variant-based acceptance holds (the
variant "wi fi" matches), but the filter actually used by `render`
(`matchesQuery`) rejects the item: the active filter does not try the
expanded variants. -/
theorem c7_counterexample :
    claimAccepts (buildSearchBlob "iPad Wi-Fi" "Tablets") "wifi" = true ∧
      matchesQuery (buildSearchBlob "iPad Wi-Fi" "Tablets") "wifi" = false := by
  constructor <;> decide

/-- C7 (amended): the filter accepts an item iff every token of the
single normalized query fuzzily matches some token of the item's search
blob; the variant expansion of `expandQueryVariants` is not applied by
the active filter path. -/
theorem c7_filter_single_normalized_query (search q : String) (hq : q ≠ "") :
    matchesQuery search q = true ↔
      ∀ tok ∈ splitTokens (normText q),
        fuzzyTokenMatch tok (splitTokens search) = true := by
  have hbeq : (q == "") = false := by simp [beq_eq_false_iff_ne, hq]
  by_cases he : splitTokens (normText q) = []
  · simp [matchesQuery, hbeq, he]
  · have hne : (splitTokens (normText q)).isEmpty = false := by
      simpa [List.isEmpty_eq_true] using he
    simp [matchesQuery, hbeq, hne, List.all_eq_true]

/-- Witness for C7's amended theorem on a concrete item and query. -/
theorem c7_witness :
    matchesQuery "iphone 15 pro" "15" = true ↔
      ∀ tok ∈ splitTokens (normText "15"),
        fuzzyTokenMatch tok (splitTokens "iphone 15 pro") = true :=
  c7_filter_single_normalized_query "iphone 15 pro" "15" (by decide)

/-! ## C5: render-pipeline rejection of bad prices (source: `render`, lines 711-719) -/

/-- JavaScript numbers as the render pipeline sees them: a finite value,
`NaN`, or a signed infinity. -/
inductive JSNum
  | num (q : ℚ)
  | nan
  | posInf
  | negInf
deriving DecidableEq

/-- JavaScript `isNaN` on a number (no string coercion needed here:
`r.price` is numeric in the dataset). -/
def jsIsNaN : JSNum → Bool
  | .nan => true
  | _ => false

/-- Row guard of `render`: `if(!dev||isNaN(base)) return;` followed by
`if(!matchesQuery(r,q)) return;`.  Returns whether the row is kept —
kept rows proceed to `rankScore`/`finalPriceFor` and are displayed. -/
def renderRowKept (device : String) (price : JSNum) (search q : String) : Bool :=
  if device == "" || jsIsNaN price then false
  else matchesQuery search q

/-- C5 counterexample: a row priced `Infinity` is NOT rejected by the
render pipeline — `isNaN(Infinity)` is false, so the row passes the
guard and proceeds to bucket resolution and display. -/
theorem c5_counterexample :
    renderRowKept "iphone" JSNum.posInf "iphone" "" = true := by decide

/-- C5 (amended): the render pipeline rejects a row before bucket
resolution when its price is `NaN` (or its name is empty); rows with
infinite prices pass the guard. -/
theorem c5_nan_rejected (device : String) (price : JSNum) (search q : String)
    (h : price = JSNum.nan ∨ device = "") :
    renderRowKept device price search q = false := by
  rcases h with h | h <;> subst h <;> simp [renderRowKept, jsIsNaN]

/-- Witness for C5's amended theorem: a NaN-priced row is dropped. -/
theorem c5_witness : renderRowKept "iphone" JSNum.nan "iphone" "15" = false :=
  c5_nan_rejected "iphone" JSNum.nan "iphone" "15" (Or.inl rfl)

/-! ## Relevance scorer (source: `extractNums`, `rankScore`, lines 610-635) -/

/-- Token matches `^\d+(\.\d+)?$`. -/
def isNumToken (t : List Char) : Bool :=
  !(takeDigits t).1.isEmpty &&
    ((takeDigits t).2.isEmpty ||
      (match (takeDigits t).2 with
        | '.' :: r2 => !(takeDigits r2).1.isEmpty && (takeDigits r2).2.isEmpty
        | _ => false))

/-- Decimal value of a digit run. -/
def parseNat (ds : List Char) : ℕ :=
  ds.foldl (fun acc c => acc * 10 + (c.toNat - '0'.toNat)) 0

/-- JavaScript `parseFloat` on a token that matched `^\d+(\.\d+)?$` (exact value). -/
def parseNumTok (t : List Char) : ℚ :=
  match (takeDigits t).2 with
  | '.' :: r2 =>
    (parseNat (takeDigits t).1 : ℚ) +
      (parseNat (takeDigits r2).1 : ℚ) / ((10 : ℚ) ^ (takeDigits r2).1.length)
  | _ => (parseNat (takeDigits t).1 : ℚ)

/-- Function `extractNums(tokens)`: values of the purely numeric tokens. -/
def extractNums (tokens : List String) : List ℚ :=
  (tokens.filter (fun t => isNumToken t.toList)).map (fun t => parseNumTok t.toList)

/-- Best per-token signal of `rankScore`'s token loop: exact equality 10,
prefix-or-substring containment 6, bounded fuzzy match 3, else 0. -/
def tokenBestN (tok : String) (hayTokens : List String) : ℕ :=
  hayTokens.foldl
    (fun best h =>
      if h == tok then max best 10
      else if startsWithList tok.toList h.toList || jsIncludes h tok then max best 6
      else if decide (((h.length : ℤ) - (tok.length : ℤ)).natAbs ≤ 3) &&
          decide (levenshtein tok h ≤ (if 6 ≤ tok.length then 2 else 1)) then max best 3
      else best) 0

/-- Number of adjacent two-token query phrases appearing verbatim in the
blob (each adds 12). -/
def phraseCount (hay : String) (tokens : List String) : ℕ :=
  ((tokens.zip tokens.tail).filter (fun p => jsIncludes hay (p.1 ++ " " ++ p.2))).length

/-- Total of the per-token best signals (the source adds each token's
`best` into the score as the loop runs). -/
def sumTokenBest (tokens hayTokens : List String) : ℕ :=
  tokens.foldl (fun acc tok => acc + tokenBestN tok hayTokens) 0

/-- All pairwise distances `|hn - qn|`, in the nested-loop order of the
source. -/
def numsScoreDeltas (qNums hNums : List ℚ) : List ℚ :=
  qNums.foldl (fun acc qn => hNums.foldl (fun acc2 hn => acc2 ++ [|hn - qn|]) acc) []

/-- Numeric-proximity component: +25 for an exact number match, +10
within 1, +5 within 2, otherwise subtract the minimal distance. -/
def numsScore (qNums hNums : List ℚ) : ℚ :=
  if qNums.isEmpty || hNums.isEmpty then 0
  else
    match numsScoreDeltas qNums hNums with
    | [] => 0
    | d :: ds =>
      if ds.foldl min d = 0 then 25
      else if ds.foldl min d ≤ 1 then 10
      else if ds.foldl min d ≤ 2 then 5
      else -(ds.foldl min d)

/-- Length penalty `Math.max(0, hayTokens.length - tokens.length) * 0.25`. -/
def lengthPenalty (hayCount tokCount : ℕ) : ℚ :=
  ((max 0 ((hayCount : ℤ) - (tokCount : ℤ)) : ℤ) : ℚ) * 0.25

/-- Function `rankScore(row, q)`: +40 for the whole normalized query as a
substring, +12 per adjacent phrase, the best per-token signal summed
over tokens, the numeric-proximity component, minus the length
penalty. -/
def rankScore (search q : String) : ℚ :=
  if normText q == "" then 0
  else
    (if jsIncludes search (normText q) then (40 : ℚ) else 0) +
      12 * (phraseCount search (splitTokens (normText q)) : ℚ) +
      (sumTokenBest (splitTokens (normText q)) (splitTokens search) : ℚ) +
      numsScore (extractNums (splitTokens (normText q)))
        (extractNums (splitTokens search)) -
      lengthPenalty (splitTokens search).length (splitTokens (normText q)).length

lemma numsScore_item1 :
    numsScore [((15 : ℕ) : ℚ), ((256 : ℕ) : ℚ)] [((15 : ℕ) : ℚ), ((15 : ℕ) : ℚ)] = 25 := by
  norm_num [numsScore, numsScoreDeltas, List.foldl]

lemma numsScore_item2 :
    numsScore [((15 : ℕ) : ℚ), ((256 : ℕ) : ℚ)] [((14 : ℕ) : ℚ), ((14 : ℕ) : ℚ)] = 10 := by
  norm_num [numsScore, numsScoreDeltas, List.foldl]

lemma rankScore_item1 :
    rankScore "iphone 15 pro 256gb 15 pro 256gb phones" "15 pro 256" = 455/4 := by
  unfold rankScore
  rw [if_neg (by decide : ¬((normText "15 pro 256" == "") = true)),
    if_pos (by decide :
      (jsIncludes "iphone 15 pro 256gb 15 pro 256gb phones" (normText "15 pro 256")) = true),
    show phraseCount "iphone 15 pro 256gb 15 pro 256gb phones"
        (splitTokens (normText "15 pro 256")) = 2 from by decide,
    show sumTokenBest (splitTokens (normText "15 pro 256"))
        (splitTokens "iphone 15 pro 256gb 15 pro 256gb phones") = 26 from by decide,
    show extractNums (splitTokens (normText "15 pro 256")) =
        [((15 : ℕ) : ℚ), ((256 : ℕ) : ℚ)] from by decide,
    show extractNums (splitTokens "iphone 15 pro 256gb 15 pro 256gb phones") =
        [((15 : ℕ) : ℚ), ((15 : ℕ) : ℚ)] from by decide,
    show (splitTokens "iphone 15 pro 256gb 15 pro 256gb phones").length = 8 from by decide,
    show (splitTokens (normText "15 pro 256")).length = 3 from by decide,
    numsScore_item1]
  norm_num [lengthPenalty]

lemma rankScore_item2 :
    rankScore "iphone 14 pro 256gb 14 pro 256gb phones" "15 pro 256" = 159/4 := by
  unfold rankScore
  rw [if_neg (by decide : ¬((normText "15 pro 256" == "") = true)),
    if_neg (by decide :
      ¬((jsIncludes "iphone 14 pro 256gb 14 pro 256gb phones" (normText "15 pro 256")) = true)),
    show phraseCount "iphone 14 pro 256gb 14 pro 256gb phones"
        (splitTokens (normText "15 pro 256")) = 1 from by decide,
    show sumTokenBest (splitTokens (normText "15 pro 256"))
        (splitTokens "iphone 14 pro 256gb 14 pro 256gb phones") = 19 from by decide,
    show extractNums (splitTokens (normText "15 pro 256")) =
        [((15 : ℕ) : ℚ), ((256 : ℕ) : ℚ)] from by decide,
    show extractNums (splitTokens "iphone 14 pro 256gb 14 pro 256gb phones") =
        [((14 : ℕ) : ℚ), ((14 : ℕ) : ℚ)] from by decide,
    show (splitTokens "iphone 14 pro 256gb 14 pro 256gb phones").length = 8 from by decide,
    show (splitTokens (normText "15 pro 256")).length = 3 from by decide,
    numsScore_item2]
  norm_num [lengthPenalty]

/-- C9: for the query "15 pro 256", the item "iPhone 15 Pro 256GB"
scores strictly higher than "iPhone 14 Pro 256GB" (both over blobs built
from name and sheet label "Phones"): 455/4 versus 159/4. -/
theorem c9_ranking :
    rankScore (buildSearchBlob "iPhone 15 Pro 256GB" "Phones") "15 pro 256" >
      rankScore (buildSearchBlob "iPhone 14 Pro 256GB" "Phones") "15 pro 256" := by
  rw [show buildSearchBlob "iPhone 15 Pro 256GB" "Phones" =
        "iphone 15 pro 256gb 15 pro 256gb phones" from by decide,
    show buildSearchBlob "iPhone 14 Pro 256GB" "Phones" =
        "iphone 14 pro 256gb 14 pro 256gb phones" from by decide,
    rankScore_item1, rankScore_item2]
  norm_num

end AllensList
